import Mathlib

/-!
# Verification of the browser network-request monitor

Shallow embedding of the request-lifecycle tracker
(`src/server/browser-monitor.ts`, class `BrowserMonitor`) and the
request store (`src/core/database.ts`, class `RequestDatabase`).

Conventions of the embedding:
* JavaScript numbers that arise here (HTTP status, byte counts, limits)
  are modelled as `Int`; timestamps are ISO-8601 strings compared
  lexicographically, which agrees with SQLite `TEXT` comparison.
* `null`/`undefined` of optional values are modelled with `Option`.
* JavaScript truthiness tests on strings and numbers are modelled
  explicitly (`""` and `0` are falsy).
* `new RegExp(p)` / `.test(s)` is modelled by an executable engine for a
  subset of the JavaScript regular-expression dialect (literals, `.`, escapes,
  character classes, alternation, grouping, `*`, `+`, `?`, `.`); a pattern
  whose compilation fails is the model of a `RegExp` constructor throw.
-/

/-! ## Decimal strings: models of JS `Number(...)`/`toString()` and SQLite CAST -/

/-- The character for a decimal digit `0 ≤ d ≤ 9`. -/
def digitChar (d : Nat) : Char :=
  if d = 0 then '0' else if d = 1 then '1' else if d = 2 then '2'
  else if d = 3 then '3' else if d = 4 then '4' else if d = 5 then '5'
  else if d = 6 then '6' else if d = 7 then '7' else if d = 8 then '8' else '9'

/-- The digit value of a character, `none` if it is not a decimal digit. -/
def charDigit? (c : Char) : Option Nat :=
  if c = '0' then some 0 else if c = '1' then some 1 else if c = '2' then some 2
  else if c = '3' then some 3 else if c = '4' then some 4 else if c = '5' then some 5
  else if c = '6' then some 6 else if c = '7' then some 7 else if c = '8' then some 8
  else if c = '9' then some 9 else none

theorem charDigit?_digitChar : ∀ d, d < 10 → charDigit? (digitChar d) = some d := by decide

theorem digitChar_ne_minus : ∀ d, d < 10 → digitChar d ≠ '-' := by decide

/-- Big-endian decimal digits with explicit fuel (structural recursion so
that the kernel can evaluate it; `fuel > n` is always enough). -/
def natDecDigitsAux : Nat → Nat → List Nat
  | 0, _ => []
  | fuel + 1, n => if n < 10 then [n] else natDecDigitsAux fuel (n / 10) ++ [n % 10]

/-- Big-endian decimal digits of a natural number (never empty). -/
def natDecDigits (n : Nat) : List Nat := natDecDigitsAux (n + 1) n

/-- Value of a big-endian digit list. -/
def digitsVal (ds : List Nat) : Nat := ds.foldl (fun a d => 10 * a + d) 0

theorem digitsVal_natDecDigitsAux :
    ∀ fuel n, n < fuel → digitsVal (natDecDigitsAux fuel n) = n := by
  intro fuel
  induction fuel with
  | zero => intro n h; omega
  | succ fuel ih =>
    intro n h
    simp only [natDecDigitsAux]
    split
    · simp [digitsVal]
    · rename_i h10
      have hdiv : n / 10 < n := Nat.div_lt_self (by omega) (by omega)
      have hrec := ih (n / 10) (by omega)
      simp only [digitsVal] at hrec ⊢
      rw [List.foldl_append, hrec]
      simp only [List.foldl_cons, List.foldl_nil]
      omega

theorem digitsVal_natDecDigits (n : Nat) : digitsVal (natDecDigits n) = n :=
  digitsVal_natDecDigitsAux (n + 1) n (Nat.lt_succ_self n)

theorem natDecDigitsAux_lt :
    ∀ fuel n, ∀ d ∈ natDecDigitsAux fuel n, d < 10 := by
  intro fuel
  induction fuel with
  | zero => intro n d hd; simp [natDecDigitsAux] at hd
  | succ fuel ih =>
    intro n d hd
    simp only [natDecDigitsAux] at hd
    split at hd
    · rename_i h
      simp at hd
      omega
    · rw [List.mem_append] at hd
      rcases hd with hd | hd
      · exact ih (n / 10) d hd
      · simp at hd
        omega

theorem natDecDigits_lt (n : Nat) : ∀ d ∈ natDecDigits n, d < 10 :=
  natDecDigitsAux_lt (n + 1) n

theorem natDecDigits_ne_nil (n : Nat) : natDecDigits n ≠ [] := by
  unfold natDecDigits
  simp only [natDecDigitsAux]
  split
  · simp
  · simp

/-- Model of JavaScript `(n).toString()` for a natural number. -/
def natToDecString (n : Nat) : String := String.mk ((natDecDigits n).map digitChar)

/-- Model of JavaScript `(i).toString()` for an integer. -/
def intToDecString (i : Int) : String :=
  match i with
  | .ofNat n => natToDecString n
  | .negSucc n => String.mk ('-' :: (natDecDigits (n + 1)).map digitChar)

/-- Parse a run of decimal digits (all characters must be digits). -/
def parseDigitsAux : List Char → Nat → Option Nat
  | [], acc => some acc
  | c :: cs, acc =>
    match charDigit? c with
    | some d => parseDigitsAux cs (10 * acc + d)
    | none => none

theorem parseDigitsAux_map (ds : List Nat) (h : ∀ d ∈ ds, d < 10) :
    ∀ acc, parseDigitsAux (ds.map digitChar) acc =
      some (ds.foldl (fun a d => 10 * a + d) acc) := by
  induction ds with
  | nil => intro acc; rfl
  | cons d ds ih =>
    intro acc
    have hd : d < 10 := h d (List.mem_cons_self d ds)
    simp only [List.map_cons, parseDigitsAux, charDigit?_digitChar d hd, List.foldl_cons]
    exact ih (fun x hx => h x (List.mem_cons_of_mem d hx)) (10 * acc + d)

/-- Model of JavaScript `Number(s)` restricted to integer-valued decimal
strings; `none` stands for `NaN` (and for non-integer results, which the
store never produces for the columns read this way). -/
def jsNumber? (s : String) : Option Int :=
  match s.data with
  | [] => none
  | c :: cs =>
    if c = '-' then
      match cs with
      | [] => none
      | _ :: _ => (parseDigitsAux cs 0).map (fun n => -(n : Int))
    else (parseDigitsAux (c :: cs) 0).map (fun n => (n : Int))

theorem jsNumber?_natToDecString (n : Nat) : jsNumber? (natToDecString n) = some n := by
  unfold natToDecString jsNumber?
  have hne := natDecDigits_ne_nil n
  have hlt := natDecDigits_lt n
  cases hds : natDecDigits n with
  | nil => exact absurd hds hne
  | cons d ds =>
    simp only [List.map_cons]
    have hd : d < 10 := hlt d (hds ▸ List.mem_cons_self d ds)
    rw [if_neg (digitChar_ne_minus d hd)]
    have : parseDigitsAux (digitChar d :: ds.map digitChar) 0 =
        some ((d :: ds).foldl (fun a x => 10 * a + x) 0) := by
      have := parseDigitsAux_map (d :: ds) (fun x hx => hlt x (hds ▸ hx)) 0
      simpa using this
    rw [this]
    have hval := digitsVal_natDecDigits n
    rw [hds] at hval
    simp only [digitsVal] at hval
    simp [hval]

theorem jsNumber?_intToDecString (i : Int) : jsNumber? (intToDecString i) = some i := by
  cases i with
  | ofNat n => exact jsNumber?_natToDecString n
  | negSucc n =>
    have hne := natDecDigits_ne_nil (n + 1)
    have hlt := natDecDigits_lt (n + 1)
    cases hds : natDecDigits (n + 1) with
    | nil => exact absurd hds hne
    | cons d ds =>
      have hparse : parseDigitsAux (digitChar d :: ds.map digitChar) 0 = some (n + 1) := by
        have h1 := parseDigitsAux_map (d :: ds) (fun x hx => hlt x (hds ▸ hx)) 0
        have hval := digitsVal_natDecDigits (n + 1)
        rw [hds] at hval
        simp only [digitsVal] at hval
        simpa [hval] using h1
      rw [show intToDecString (Int.negSucc n) =
            String.mk ('-' :: (natDecDigits (n + 1)).map digitChar) from rfl, hds]
      simp [jsNumber?, hparse, Int.negSucc_eq]

theorem natToDecString_ne_empty (n : Nat) : natToDecString n ≠ "" := by
  unfold natToDecString
  intro h
  have : (natDecDigits n).map digitChar = [] := by
    have := congrArg String.data h
    simpa using this
  have := natDecDigits_ne_nil n
  simp_all

theorem intToDecString_ne_empty (i : Int) : intToDecString i ≠ "" := by
  cases i with
  | ofNat n => exact natToDecString_ne_empty n
  | negSucc n =>
    intro h
    have := congrArg String.data h
    simp [intToDecString] at this

/-- Value of the longest leading digit run (SQLite numeric-prefix parsing). -/
def takeDigitsVal (cs : List Char) : Nat :=
  (cs.takeWhile (fun c => (charDigit? c).isSome)).foldl
    (fun a c => 10 * a + (charDigit? c).getD 0) 0

/-- Model of SQLite `CAST(s AS INTEGER)`: an optional sign followed by the
longest run of decimal digits; a string with no numeric prefix casts to 0. -/
def castTextInt (s : String) : Int :=
  match s.data with
  | '-' :: rest => -(Int.ofNat (takeDigitsVal rest))
  | '+' :: rest => Int.ofNat (takeDigitsVal rest)
  | cs => Int.ofNat (takeDigitsVal cs)

/-! ## Text ordering

SQLite compares TEXT values bytewise; on UTF-8 data this is codepoint
lexicographic order, implemented here as an executable comparison. -/

/-- Lexicographic `≤` on character lists, by codepoint. -/
def charsLe : List Char → List Char → Bool
  | [], _ => true
  | _ :: _, [] => false
  | a :: as, b :: bs =>
    decide (a.toNat < b.toNat) || (decide (a.toNat = b.toNat) && charsLe as bs)

/-- SQLite TEXT `≤` on strings. -/
def strLe (a b : String) : Bool := charsLe a.data b.data

/-- SQLite TEXT `<` on strings. -/
def strLt (a b : String) : Bool := !strLe b a

theorem charsLe_total : ∀ as bs, charsLe as bs = true ∨ charsLe bs as = true := by
  intro as
  induction as with
  | nil => intro bs; left; rfl
  | cons a as ih =>
    intro bs
    cases bs with
    | nil => right; rfl
    | cons b bs =>
      simp only [charsLe, Bool.or_eq_true, Bool.and_eq_true, decide_eq_true_eq]
      rcases Nat.lt_trichotomy a.toNat b.toNat with h | h | h
      · left; left; exact h
      · rcases ih bs with h' | h'
        · left; right; exact ⟨h, h'⟩
        · right; right; exact ⟨h.symm, h'⟩
      · right; left; exact h

theorem charsLe_trans :
    ∀ as bs cs, charsLe as bs = true → charsLe bs cs = true → charsLe as cs = true := by
  intro as
  induction as with
  | nil => intro bs cs _ _; rfl
  | cons a as ih =>
    intro bs cs h1 h2
    cases bs with
    | nil => simp [charsLe] at h1
    | cons b bs =>
      cases cs with
      | nil => simp [charsLe] at h2
      | cons c cs =>
        simp only [charsLe, Bool.or_eq_true, Bool.and_eq_true, decide_eq_true_eq] at h1 h2 ⊢
        rcases h1 with h1 | ⟨h1e, h1r⟩
        · rcases h2 with h2 | ⟨h2e, h2r⟩
          · left; omega
          · left; omega
        · rcases h2 with h2 | ⟨h2e, h2r⟩
          · left; omega
          · right; exact ⟨by omega, ih bs cs h1r h2r⟩

/-! ## A JavaScript regular-expression subset

Executable model of `new RegExp(pattern)` (compilation, which throws on a
syntax error — modelled by `Option`) and `regexp.test(s)` (unanchored
substring search).  The modelled dialect: literal characters, `.`,
escapes (`\d \D \w \W \s \S`, control escapes, identity escapes),
character classes with ranges and negation, grouping `(...)`/`(?:...)`,
alternation `|`, and the quantifiers `*`, `+`, `?` (with optional lazy
`?` suffix, which does not affect `test`).  Anchors, counted quantifiers,
backreferences and lookaround are outside the subset and are rejected. -/

/-- One member of a character class: a single character or a range. -/
inductive ClassItem where
  | single (c : Char)
  | range (lo hi : Char)
deriving Repr, DecidableEq

/-- Abstract syntax of the modelled regular-expression subset. -/
inductive JsRegex where
  | fail
  | eps
  | dot
  | lit (c : Char)
  | cls (neg : Bool) (items : List ClassItem)
  | alt (r1 r2 : JsRegex)
  | cat (r1 r2 : JsRegex)
  | star (r : JsRegex)
deriving Repr, DecidableEq

/-- Does a character class (before negation) contain a character? -/
def classHas (items : List ClassItem) (c : Char) : Bool :=
  items.any fun it =>
    match it with
    | .single a => a == c
    | .range lo hi => decide (lo ≤ c) && decide (c ≤ hi)

/-- Does the regex accept the empty string? -/
def jsNullable : JsRegex → Bool
  | .fail => false
  | .eps => true
  | .dot => false
  | .lit _ => false
  | .cls _ _ => false
  | .alt r1 r2 => jsNullable r1 || jsNullable r2
  | .cat r1 r2 => jsNullable r1 && jsNullable r2
  | .star _ => true

/-- Brzozowski derivative of a regex by a character. -/
def jsDeriv : JsRegex → Char → JsRegex
  | .fail, _ => .fail
  | .eps, _ => .fail
  | .dot, c => if c = '\n' then .fail else .eps
  | .lit a, c => if a = c then .eps else .fail
  | .cls neg items, c =>
    if (if neg then !(classHas items c) else classHas items c) then .eps else .fail
  | .alt r1 r2, c => .alt (jsDeriv r1 c) (jsDeriv r2 c)
  | .cat r1 r2, c =>
    if jsNullable r1 then .alt (.cat (jsDeriv r1 c) r2) (jsDeriv r2 c)
    else .cat (jsDeriv r1 c) r2
  | .star r, c => .cat (jsDeriv r c) (.star r)

/-- Does some prefix of the character list match the regex? -/
def jsMatchSome (r : JsRegex) : List Char → Bool
  | [] => jsNullable r
  | c :: cs => jsNullable r || jsMatchSome (jsDeriv r c) cs

/-- Does some substring starting at any position match the regex? -/
def jsSearch (r : JsRegex) : List Char → Bool
  | [] => jsNullable r
  | c :: cs => jsMatchSome r (c :: cs) || jsSearch r cs

/-- Model of JavaScript `regexp.test(s)`: unanchored substring search. -/
def regexTest (r : JsRegex) (s : String) : Bool := jsSearch r s.data

/-- Items of the predefined class `\d`. -/
def digitItems : List ClassItem := [.range '0' '9']

/-- Items of the predefined class `\w`. -/
def wordItems : List ClassItem :=
  [.range 'a' 'z', .range 'A' 'Z', .range '0' '9', .single '_']

/-- Items of the predefined class `\s` (common whitespace subset). -/
def spaceItems : List ClassItem :=
  [.single ' ', .single '\t', .single '\n', .single '\r',
   .single (Char.ofNat 11), .single (Char.ofNat 12), .single (Char.ofNat 160)]

/-- An escape sequence, as either a single character or a predefined class. -/
def escapeElem (c : Char) : Option (Sum Char (Bool × List ClassItem)) :=
  if c = 'd' then some (.inr (false, digitItems))
  else if c = 'D' then some (.inr (true, digitItems))
  else if c = 'w' then some (.inr (false, wordItems))
  else if c = 'W' then some (.inr (true, wordItems))
  else if c = 's' then some (.inr (false, spaceItems))
  else if c = 'S' then some (.inr (true, spaceItems))
  else if c = 'n' then some (.inl '\n')
  else if c = 't' then some (.inl '\t')
  else if c = 'r' then some (.inl '\r')
  else if c = 'f' then some (.inl (Char.ofNat 12))
  else if c = 'v' then some (.inl (Char.ofNat 11))
  else if c = '0' then some (.inl (Char.ofNat 0))
  else if c = 'b' ∨ c = 'B' ∨ c = 'c' ∨ c = 'x' ∨ c = 'u' ∨ c = 'k' then none
  else if (charDigit? c).isSome then none
  else some (.inl c)

/-- Parse one element inside a character class: a literal or an escape. -/
def parseClassElem : List Char → Option (Sum Char (Bool × List ClassItem) × List Char)
  | [] => none
  | '\\' :: rest =>
    match rest with
    | [] => none
    | e :: rest' => (escapeElem e).map (fun el => (el, rest'))
  | c :: rest => some (.inl c, rest)

/-- Parse the items of a character class up to the closing bracket. -/
def parseClassItems (fuel : Nat) (cs : List Char) : Option (List ClassItem × List Char) :=
  match fuel with
  | 0 => none
  | fuel + 1 =>
    match cs with
    | [] => none
    | ']' :: rest => some ([], rest)
    | _ =>
      match parseClassElem cs with
      | none => none
      | some (.inr (neg, items), rest) =>
        if neg then none
        else
          match parseClassItems fuel rest with
          | none => none
          | some (more, rest') => some (items ++ more, rest')
      | some (.inl c1, rest) =>
        match rest with
        | '-' :: ']' :: rest' => some ([.single c1, .single '-'], rest')
        | '-' :: d :: rest' =>
          match parseClassElem (d :: rest') with
          | some (.inl c2, rest'') =>
            if c1 ≤ c2 then
              match parseClassItems fuel rest'' with
              | none => none
              | some (more, rest3) => some (.range c1 c2 :: more, rest3)
            else none
          | _ => none
        | _ =>
          match parseClassItems fuel rest with
          | none => none
          | some (more, rest') => some (.single c1 :: more, rest')

/-- Consume a lazy-quantifier marker `?` after a quantifier, if present. -/
def dropLazyMark (cs : List Char) : List Char :=
  match cs with
  | '?' :: rest => rest
  | _ => cs

mutual

/-- Parse an alternation (`a|b|c`). -/
def parseRxAlt (fuel : Nat) (cs : List Char) : Option (JsRegex × List Char) :=
  match fuel with
  | 0 => none
  | fuel + 1 =>
    match parseRxCat fuel cs with
    | none => none
    | some (r1, rest) =>
      match rest with
      | '|' :: rest' =>
        match parseRxAlt fuel rest' with
        | none => none
        | some (r2, rest'') => some (.alt r1 r2, rest'')
      | _ => some (r1, rest)

/-- Parse a concatenation of quantified atoms. -/
def parseRxCat (fuel : Nat) (cs : List Char) : Option (JsRegex × List Char) :=
  match fuel with
  | 0 => none
  | fuel + 1 =>
    match cs with
    | [] => some (.eps, [])
    | ')' :: _ => some (.eps, cs)
    | '|' :: _ => some (.eps, cs)
    | _ =>
      match parseRxPiece fuel cs with
      | none => none
      | some (r1, rest) =>
        match parseRxCat fuel rest with
        | none => none
        | some (r2, rest') => some (.cat r1 r2, rest')

/-- Parse an atom with an optional quantifier (`*`, `+`, `?`, lazy forms). -/
def parseRxPiece (fuel : Nat) (cs : List Char) : Option (JsRegex × List Char) :=
  match fuel with
  | 0 => none
  | fuel + 1 =>
    match parseRxAtom fuel cs with
    | none => none
    | some (r, rest) =>
      match rest with
      | '*' :: rest' => some (.star r, dropLazyMark rest')
      | '+' :: rest' => some (.cat r (.star r), dropLazyMark rest')
      | '?' :: rest' => some (.alt r .eps, dropLazyMark rest')
      | _ => some (r, rest)

/-- Parse a single atom: a group, class, escape, `.` or a literal. -/
def parseRxAtom (fuel : Nat) (cs : List Char) : Option (JsRegex × List Char) :=
  match fuel with
  | 0 => none
  | fuel + 1 =>
    match cs with
    | [] => none
    | '(' :: rest =>
      let body :=
        match rest with
        | '?' :: ':' :: rest' => some rest'
        | '?' :: _ => none
        | _ => some rest
      match body with
      | none => none
      | some rest' =>
        match parseRxAlt fuel rest' with
        | none => none
        | some (r, rest'') =>
          match rest'' with
          | ')' :: rest3 => some (r, rest3)
          | _ => none
    | ')' :: _ => none
    | '[' :: rest =>
      match rest with
      | '^' :: rest' =>
        match parseClassItems (rest'.length + 1) rest' with
        | none => none
        | some (items, rest'') => some (.cls true items, rest'')
      | _ =>
        match parseClassItems (rest.length + 1) rest with
        | none => none
        | some (items, rest') => some (.cls false items, rest')
    | '\\' :: rest =>
      match rest with
      | [] => none
      | e :: rest' =>
        match escapeElem e with
        | none => none
        | some (.inl c) => some (.lit c, rest')
        | some (.inr (neg, items)) => some (.cls neg items, rest')
    | '*' :: _ => none
    | '+' :: _ => none
    | '?' :: _ => none
    | '^' :: _ => none
    | '$' :: _ => none
    | '.' :: rest => some (.dot, rest)
    | c :: rest => some (.lit c, rest)

end

/-- Model of `new RegExp(p)`: `none` models the constructor throwing a
`SyntaxError` (and also rejects the constructs outside the modelled
subset). -/
def compileRegex (p : String) : Option JsRegex :=
  match parseRxAlt (4 * p.length + 16) p.data with
  | some (r, []) => some r
  | _ => none

/-! ## The request tracker (`BrowserMonitor`, `src/server/browser-monitor.ts`)

The live table `networkRequests : Map<string, NetworkRequest>` is modelled
as an insertion-ordered association list; `Map.get`/`Map.set` become
`mapGet`/`mapSet`.  The `networkCallback` field is modelled by a `Bool`
recording whether a callback is registered; each event handler returns the
list of records passed to the callback (the fan-out) alongside the new
state. -/

/-- The `NetworkRequest` aggregate of `src/types/index.ts`. -/
structure NetworkRequest where
  id : String
  timestamp : String
  method : String
  url : String
  headers : List (String × String)
  type : String
  status : Int
  responseHeaders : List (String × String)
  responseSize : Int
  responseBody : Option String := none
  body : Option String := none
  encodedDataLength : Option Int := none
  error : Option String
deriving Repr, DecidableEq

/-- The `RequestFilter` of `src/types/index.ts` (`null` modelled as `none`). -/
structure RequestFilter where
  urlPattern : Option String
  types : Option (List String)
deriving Repr, DecidableEq

/-- The tracker-relevant state of a `BrowserMonitor` instance. -/
structure MonitorState where
  networkRequests : List (String × NetworkRequest)
  requestFilter : RequestFilter
  networkCallback : Bool
deriving Repr, DecidableEq

/-- `Map.prototype.get` on the association-list model. -/
def mapGet (m : List (String × NetworkRequest)) (k : String) : Option NetworkRequest :=
  match m with
  | [] => none
  | (k', v') :: rest => if k' = k then some v' else mapGet rest k

/-- `Map.prototype.set`: overwrite in place if present, else append. -/
def mapSet (m : List (String × NetworkRequest)) (k : String) (v : NetworkRequest) :
    List (String × NetworkRequest) :=
  match m with
  | [] => [(k, v)]
  | (k', v') :: rest => if k' = k then (k, v) :: rest else (k', v') :: mapSet rest k v

/-- JS truthiness of `this.requestFilter.urlPattern` (`string | null`):
falsy when `null` or the empty string. -/
def urlPatternTruthy (filt : RequestFilter) : Bool :=
  match filt.urlPattern with
  | some p => p ≠ ""
  | none => false

/-- JS truthiness of `this.requestFilter.types` (`string[] | null`):
an array is always truthy, `null` is falsy. -/
def typesTruthy (filt : RequestFilter) : Bool := filt.types.isSome

/-- `new RegExp(pattern).test(url)` inside `try ... catch`: an invalid
pattern (constructor throw) yields `false` via the catch branch. -/
def regexTestPattern (p url : String) : Bool :=
  match compileRegex p with
  | some r => regexTest r url
  | none => false

/-- `BrowserMonitor.shouldProcessRequest`, structured exactly as the
source: both-unset check, then URL pattern, then type list. -/
def shouldProcessRequest (filt : RequestFilter) (request : NetworkRequest) : Bool :=
  if !urlPatternTruthy filt && !typesTruthy filt then true
  else if urlPatternTruthy filt then regexTestPattern (filt.urlPattern.getD "") request.url
  else if typesTruthy filt then (filt.types.getD []).contains request.type
  else true

/-- `BrowserMonitor.setRequestFilter` (`?? null` on each field). -/
def setRequestFilter (st : MonitorState) (urlPattern : Option String)
    (types : Option (List String)) : MonitorState :=
  { st with requestFilter := { urlPattern := urlPattern, types := types } }

/-- The four protocol events consumed by `setupNetworkListeners`.  The
`now` argument of `requestWillBeSent` carries the external clock reading
used for `new Date().toISOString()`. -/
inductive NetworkEvent where
  | requestWillBeSent (requestId method url : String)
      (headers : List (String × String)) (type now : String)
  | responseReceived (requestId : String) (status : Int)
      (headers : List (String × String))
  | loadingFinished (requestId : String) (encodedDataLength : Int)
  | loadingFailed (requestId : String) (errorText : String)
deriving Repr, DecidableEq

/-- The request identifier carried by an event (`params.requestId`). -/
def eventRequestId : NetworkEvent → String
  | .requestWillBeSent requestId .. => requestId
  | .responseReceived requestId .. => requestId
  | .loadingFinished requestId _ => requestId
  | .loadingFailed requestId _ => requestId

/-- Is the event a `requestWillBeSent`? -/
def isRequestStart : NetworkEvent → Bool
  | .requestWillBeSent .. => true
  | _ => false

/-- Discriminator used to say that two events have different kinds. -/
def evKind : NetworkEvent → Nat
  | .requestWillBeSent .. => 0
  | .responseReceived .. => 1
  | .loadingFinished .. => 2
  | .loadingFailed .. => 3

/-- One event handler step of `setupNetworkListeners(Network, prefix)`:
returns the updated state and the list of records handed to
`networkCallback` by this event.  `pfx` is the `prefix` parameter used
for additional pages (`requestId = prefix + params.requestId`). -/
def handleNetworkEvent (pfx : String) (st : MonitorState) (ev : NetworkEvent) :
    MonitorState × List NetworkRequest :=
  match ev with
  | .requestWillBeSent reqId method url headers type now =>
    let requestId := pfx ++ reqId
    let request : NetworkRequest :=
      { id := requestId, timestamp := now, method := method, url := url,
        headers := headers, type := type, status := 0, responseHeaders := [],
        responseSize := 0, error := some "" }
    ({ st with networkRequests := mapSet st.networkRequests requestId request }, [])
  | .responseReceived reqId status headers =>
    let requestId := pfx ++ reqId
    match mapGet st.networkRequests requestId with
    | none => (st, [])
    | some request =>
      let request' := { request with status := status, responseHeaders := headers }
      ({ st with networkRequests := mapSet st.networkRequests requestId request' },
       if shouldProcessRequest st.requestFilter request' && st.networkCallback
       then [request'] else [])
  | .loadingFinished reqId encodedDataLength =>
    let requestId := pfx ++ reqId
    match mapGet st.networkRequests requestId with
    | none => (st, [])
    | some request =>
      let request' := { request with responseSize := encodedDataLength }
      ({ st with networkRequests := mapSet st.networkRequests requestId request' },
       if shouldProcessRequest st.requestFilter request' && st.networkCallback
       then [request'] else [])
  | .loadingFailed reqId errorText =>
    let requestId := pfx ++ reqId
    match mapGet st.networkRequests requestId with
    | none => (st, [])
    | some request =>
      let request' := { request with error := some (if errorText = "" then "未知错误" else errorText) }
      ({ st with networkRequests := mapSet st.networkRequests requestId request' },
       if shouldProcessRequest st.requestFilter request' && st.networkCallback
       then [request'] else [])

/-- Deliver a list of events in order, collecting all fan-out calls. -/
def runEvents (pfx : String) (st : MonitorState) : List NetworkEvent →
    MonitorState × List NetworkRequest
  | [] => (st, [])
  | ev :: rest =>
    let out := handleNetworkEvent pfx st ev
    let after := runEvents pfx out.1 rest
    (after.1, out.2 ++ after.2)

/-! ## The request store (`RequestDatabase`, `src/core/database.ts`)

The single SQLite table `network_requests` is modelled as a list of rows.
`headers`/`responseHeaders` are stored as serialized text in the source
(`JSON.stringify` / `JSON.parse`); since stringify/parse is a bijection on
string-to-string objects and the serialized form of an object is never a
falsy string, the columns are modelled by the key-value lists themselves.
The `status` column is TEXT and holds `request.status?.toString()`. -/

/-- A row of the `network_requests` table (interface `DatabaseRow`);
`Option` models a NULL-able column. -/
structure DatabaseRow where
  id : String
  type : String
  method : Option String
  url : Option String
  status : Option String
  headers : Option (List (String × String))
  responseHeaders : Option (List (String × String))
  responseBody : Option String
  responseSize : Option Int
  body : Option String
  timestamp : String
  encodedDataLength : Option Int
  error : Option String
deriving Repr, DecidableEq

/-- The sortable columns of `RequestQuery.sortBy`. -/
inductive SortCol where
  | timestamp
  | responseSize
  | status
deriving Repr, DecidableEq

/-- `RequestQuery.sortOrder`. -/
inductive SortOrder where
  | asc
  | desc
deriving Repr, DecidableEq

/-- The `RequestQuery` predicate bundle (`src/core/database.ts`).  The
`status` field of the source may also be a string; only the numeric form
is modelled (the claims use numbers).  `hasError` is declared by the
source interface but never read by `queryRequests`. -/
structure RequestQuery where
  type : Option String := none
  method : Option String := none
  status : Option Int := none
  url : Option String := none
  startTime : Option String := none
  endTime : Option String := none
  limit : Option Int := none
  offset : Option Int := none
  minResponseSize : Option Int := none
  maxResponseSize : Option Int := none
  minStatus : Option Int := none
  maxStatus : Option Int := none
  urlPattern : Option String := none
  hasError : Option Bool := none
  responseContentType : Option String := none
  error : Option String := none
  sortBy : Option SortCol := none
  sortOrder : Option SortOrder := none
deriving Repr, DecidableEq

/-- JS truthiness of an optional string query field. -/
def strFieldTruthy (v : Option String) : Bool :=
  match v with
  | some s => s ≠ ""
  | none => false

/-- JS truthiness of an optional numeric query field (`0` is falsy). -/
def intFieldTruthy (v : Option Int) : Bool :=
  match v with
  | some n => n ≠ 0
  | none => false

/-- `RequestDatabase.saveRequest`'s bound row for a request: the
`INSERT OR REPLACE` column values. -/
def requestToRow (request : NetworkRequest) : DatabaseRow :=
  { id := request.id
    type := request.type
    method := some request.method
    url := some request.url
    status := some (intToDecString request.status)
    headers := some request.headers
    responseHeaders := some request.responseHeaders
    responseBody := request.responseBody
    responseSize := some request.responseSize
    body := request.body
    timestamp := request.timestamp
    encodedDataLength := request.encodedDataLength
    error := request.error }

/-- `RequestDatabase.saveRequest`: `INSERT OR REPLACE` keyed on the
primary key `id` (the conflicting row is deleted, the new row inserted). -/
def saveRequest (request : NetworkRequest) (db : List DatabaseRow) : List DatabaseRow :=
  db.filter (fun row => row.id != request.id) ++ [requestToRow request]

/-- The row-to-record mapping applied by `queryRequests` to each result
row (`rows.map(...)` with its `||` defaults). -/
def rowToRequest (row : DatabaseRow) : NetworkRequest :=
  { id := row.id
    type := row.type
    method := row.method.getD ""
    url := row.url.getD ""
    status :=
      match row.status with
      | some s => if s = "" then 0 else (jsNumber? s).getD 0
      | none => 0
    headers := row.headers.getD []
    responseHeaders := row.responseHeaders.getD []
    responseBody := some (row.responseBody.getD "")
    responseSize := row.responseSize.getD 0
    body := row.body
    timestamp := row.timestamp
    encodedDataLength := row.encodedDataLength
    error :=
      match row.error with
      | some s => if s = "" then none else some s
      | none => none }

/-- Does the list contain the pattern as a contiguous sublist? -/
def listHasInfix (pat : List Char) : List Char → Bool
  | [] => pat.isEmpty
  | c :: rest => pat.isPrefixOf (c :: rest) || listHasInfix pat rest

/-- SQL `LIKE '%pat%'` on a TEXT value: substring match, ASCII
case-insensitive (SQLite default collation for LIKE). -/
def likeContains (hay pat : String) : Bool :=
  listHasInfix (pat.data.map Char.toLower) (hay.data.map Char.toLower)

/-- The conjunctive WHERE clause assembled by `queryRequests`: one
conjunct per truthy query field; a NULL column fails every comparison
(SQL three-valued logic drops the row). -/
def rowPasses (q : RequestQuery) (row : DatabaseRow) : Bool :=
  (if strFieldTruthy q.type && (q.type.getD "") ≠ "all"
   then row.type == q.type.getD "" else true) &&
  (if strFieldTruthy q.method
   then (match row.method with
         | some m => m == q.method.getD ""
         | none => false)
   else true) &&
  (if intFieldTruthy q.status
   then (match row.status with
         | some s => s == intToDecString (q.status.getD 0)
         | none => false)
   else true) &&
  (if strFieldTruthy q.url
   then (match row.url with
         | some u => likeContains u (q.url.getD "")
         | none => false)
   else true) &&
  (if strFieldTruthy q.startTime
   then strLe (q.startTime.getD "") row.timestamp else true) &&
  (if strFieldTruthy q.endTime
   then strLe row.timestamp (q.endTime.getD "") else true) &&
  (if intFieldTruthy q.minResponseSize
   then (match row.responseSize with
         | some n => decide (q.minResponseSize.getD 0 ≤ n)
         | none => false)
   else true) &&
  (if intFieldTruthy q.maxResponseSize
   then (match row.responseSize with
         | some n => decide (n ≤ q.maxResponseSize.getD 0)
         | none => false)
   else true) &&
  (if intFieldTruthy q.minStatus
   then (match row.status with
         | some s => decide (q.minStatus.getD 0 ≤ castTextInt s)
         | none => false)
   else true) &&
  (if intFieldTruthy q.maxStatus
   then (match row.status with
         | some s => decide (castTextInt s ≤ q.maxStatus.getD 0)
         | none => false)
   else true) &&
  (if strFieldTruthy q.urlPattern
   then (match row.url with
         | some u => regexTestPattern (q.urlPattern.getD "") u
         | none => false)
   else true) &&
  (if strFieldTruthy q.responseContentType
   then (match row.responseHeaders with
         | some hs =>
           (match hs.lookup "Content-Type" with
            | some v => likeContains v (q.responseContentType.getD "")
            | none => false)
         | none => false)
   else true) &&
  (if strFieldTruthy q.error
   then (match row.error with
         | some e => likeContains e (q.error.getD "")
         | none => false)
   else true)

/-- `ORDER BY <key>` comparison on an optional INTEGER column
(SQL NULLs sort first in ascending order). -/
def optIntLe (a b : Option Int) : Bool :=
  match a, b with
  | none, _ => true
  | some _, none => false
  | some x, some y => decide (x ≤ y)

/-- `ORDER BY <key>` comparison on an optional TEXT column. -/
def optStrLe (a b : Option String) : Bool :=
  match a, b with
  | none, _ => true
  | some _, none => false
  | some x, some y => strLe x y

/-- Ascending comparison for one sortable column. -/
def sortKeyLe (col : SortCol) (a b : DatabaseRow) : Bool :=
  match col with
  | .timestamp => strLe a.timestamp b.timestamp
  | .responseSize => optIntLe a.responseSize b.responseSize
  | .status => optStrLe a.status b.status

/-- The ORDER BY relation of `queryRequests`: requested column and
direction (ASC when no `sortOrder`), or `timestamp DESC` by default. -/
def sortLeB (q : RequestQuery) (a b : DatabaseRow) : Bool :=
  match q.sortBy with
  | none => strLe b.timestamp a.timestamp
  | some col =>
    match q.sortOrder with
    | some .desc => sortKeyLe col b a
    | _ => sortKeyLe col a b

/-- `RequestDatabase.queryRequests`: filter, sort, paginate, then map
rows to records.  `LIMIT`/`OFFSET` are appended only for truthy values;
a negative LIMIT means no limit in SQLite; `OFFSET` without `LIMIT`
(a SQLite syntax error in the source, never exercised by a claim) is
modelled as plain pagination. -/
def queryRequests (q : RequestQuery) (db : List DatabaseRow) : List NetworkRequest :=
  let filtered := db.filter (rowPasses q)
  let sorted := List.insertionSort (fun a b => sortLeB q a b = true) filtered
  let paged :=
    if intFieldTruthy q.limit then
      let lim := q.limit.getD 0
      let off := if intFieldTruthy q.offset then (q.offset.getD 0).toNat else 0
      if lim < 0 then sorted.drop off else (sorted.drop off).take lim.toNat
    else sorted
  paged.map rowToRequest

/-- `RequestDatabase.clearOldRequests`: `DELETE ... WHERE timestamp < ?`
bound to the ISO-8601 rendering of now − days (computed by the source
with `Date.setDate`; ISO strings compare like SQLite TEXT).  Returns the
number of deleted rows (`result.changes`) and the remaining table. -/
def clearOldRequests (cutoff : String) (db : List DatabaseRow) : Nat × List DatabaseRow :=
  ((db.filter (fun row => strLt row.timestamp cutoff)).length,
   db.filter (fun row => !strLt row.timestamp cutoff))

/-- The empty query object (every field absent). -/
def emptyQuery : RequestQuery := {}

/-! ## Helper lemmas about the live table -/

theorem mapGet_mapSet_same (m : List (String × NetworkRequest)) (k : String)
    (v : NetworkRequest) : mapGet (mapSet m k v) k = some v := by
  induction m with
  | nil => simp [mapGet, mapSet]
  | cons p rest ih =>
    obtain ⟨k', v'⟩ := p
    by_cases h : k' = k
    · simp [mapGet, mapSet, h]
    · simp [mapGet, mapSet, h, ih]

/-- The state part of a merge-event step whose identifier is found. -/
theorem handleNetworkEvent_state_filter (pfx : String) (st : MonitorState)
    (ev : NetworkEvent) :
    (handleNetworkEvent pfx st ev).1.requestFilter = st.requestFilter ∧
    (handleNetworkEvent pfx st ev).1.networkCallback = st.networkCallback := by
  cases ev with
  | requestWillBeSent a b c d e f => exact ⟨rfl, rfl⟩
  | responseReceived a b c =>
    simp only [handleNetworkEvent]
    cases mapGet st.networkRequests (pfx ++ a) with
    | none => exact ⟨rfl, rfl⟩
    | some request => exact ⟨rfl, rfl⟩
  | loadingFinished a b =>
    simp only [handleNetworkEvent]
    cases mapGet st.networkRequests (pfx ++ a) with
    | none => exact ⟨rfl, rfl⟩
    | some request => exact ⟨rfl, rfl⟩
  | loadingFailed a b =>
    simp only [handleNetworkEvent]
    cases mapGet st.networkRequests (pfx ++ a) with
    | none => exact ⟨rfl, rfl⟩
    | some request => exact ⟨rfl, rfl⟩

/-! ## Shared concrete fixtures used by witnesses and counterexamples -/

/-- A fully-populated sample record. -/
def sampleRequest : NetworkRequest :=
  { id := "r1", timestamp := "2024-01-01T00:00:00.000Z", method := "GET",
    url := "https://example.com/a", headers := [("Accept", "*/*")], type := "xhr",
    status := 200, responseHeaders := [("Content-Type", "application/json")],
    responseSize := 42, responseBody := some "ok", body := none,
    encodedDataLength := some 42, error := none }

/-- A fresh monitor state: empty live table, no filter, callback set. -/
def initialState : MonitorState :=
  { networkRequests := [], requestFilter := { urlPattern := none, types := none },
    networkCallback := true }

/-- A concrete `requestWillBeSent` event. -/
def startEvent : NetworkEvent :=
  .requestWillBeSent "r1" "GET" "https://example.com/a" [("Accept", "*/*")] "xhr"
    "2024-01-01T00:00:00.000Z"

/-! ## C2: filter evaluation -/

/-- C2 (amended): `shouldProcessRequest` passes everything when neither
predicate is configured, lets the URL-pattern regular-expression result
alone decide (type set ignored) when a *non-empty* URL pattern is
configured, and otherwise tests membership of the record type in a
configured type set.  The amendment: a pattern counts as configured only
when it is truthy, i.e. non-empty — the empty-string pattern behaves as
if absent. -/
theorem claim_C2_filter_semantics (filt : RequestFilter) (request : NetworkRequest) :
    shouldProcessRequest filt request =
      (if urlPatternTruthy filt then regexTestPattern (filt.urlPattern.getD "") request.url
       else if typesTruthy filt then (filt.types.getD []).contains request.type
       else true) := by
  unfold shouldProcessRequest
  cases h1 : urlPatternTruthy filt <;> cases h2 : typesTruthy filt <;> simp [h1, h2]

/-- C2 (counterexample): with the configured (non-null) URL pattern `""`
and type set `["xhr"]`, the regular expression matches the URL, yet the
filter rejects the record — the configured type set was applied, so the
regex result did not alone determine pass/fail as the claim states. -/
theorem claim_C2_counterexample :
    RequestFilter.urlPattern { urlPattern := some "", types := some ["xhr"] } = some "" ∧
    regexTestPattern "" "https://example.com/a" = true ∧
    shouldProcessRequest { urlPattern := some "", types := some ["xhr"] }
      { sampleRequest with type := "fetch" } = false := by
  refine ⟨rfl, by decide, by decide⟩

/-! ## C4: events for unknown identifiers are no-ops -/

/-- C4: a `responseReceived`, `loadingFinished` or `loadingFailed` event
whose identifier is not in the live table leaves the state (table,
filter, callback) unchanged and fans out to no subscriber. -/
theorem claim_C4_unknown_id_noop (pfx : String) (st : MonitorState) (ev : NetworkEvent)
    (hkind : isRequestStart ev = false)
    (habsent : mapGet st.networkRequests (pfx ++ eventRequestId ev) = none) :
    handleNetworkEvent pfx st ev = (st, []) := by
  cases ev with
  | requestWillBeSent a b c d e f => simp [isRequestStart] at hkind
  | responseReceived a b c =>
    simp only [eventRequestId] at habsent
    simp [handleNetworkEvent, habsent]
  | loadingFinished a b =>
    simp only [eventRequestId] at habsent
    simp [handleNetworkEvent, habsent]
  | loadingFailed a b =>
    simp only [eventRequestId] at habsent
    simp [handleNetworkEvent, habsent]

/-- C4 witness: a `responseReceived` for an untracked identifier on the
fresh state. -/
theorem claim_C4_witness :
    handleNetworkEvent "" initialState (.responseReceived "nope" 200 []) =
      (initialState, []) :=
  claim_C4_unknown_id_noop "" initialState (.responseReceived "nope" 200 [])
    (by decide) (by decide)

/-! ## C5: invalid URL pattern rejects everything, never throws -/

/-- C5: if the configured URL pattern fails to compile (the model of
`new RegExp` throwing), `shouldProcessRequest` returns `false` for every
record — for any configured type set — and every subsequent event
produces zero fan-out calls.  (The `console.warn` side effect is outside
the embedding.) -/
theorem claim_C5_invalid_pattern (p : String) (hp : compileRegex p = none) :
    (∀ (types : Option (List String)) (request : NetworkRequest),
       shouldProcessRequest { urlPattern := some p, types := types } request = false) ∧
    (∀ (pfx : String) (st : MonitorState) (ev : NetworkEvent),
       st.requestFilter.urlPattern = some p → (handleNetworkEvent pfx st ev).2 = []) := by
  have hpne : p ≠ "" := by
    intro h
    rw [h] at hp
    exact absurd hp (by decide)
  have hfirst : ∀ (types : Option (List String)) (request : NetworkRequest),
      shouldProcessRequest { urlPattern := some p, types := types } request = false := by
    intro types request
    unfold shouldProcessRequest
    have hu : urlPatternTruthy { urlPattern := some p, types := types } = true := by
      simp [urlPatternTruthy, hpne]
    rw [hu]
    simp [regexTestPattern, hp]
  refine ⟨hfirst, ?_⟩
  intro pfx st ev hurl
  have hsp : ∀ request, shouldProcessRequest st.requestFilter request = false := by
    intro request
    have hst : st.requestFilter = { urlPattern := some p, types := st.requestFilter.types } := by
      cases hf : st.requestFilter with
      | mk u t => rw [hf] at hurl; simp_all
    rw [hst]
    exact hfirst _ _
  cases ev with
  | requestWillBeSent a b c d e f => rfl
  | responseReceived a b c =>
    simp only [handleNetworkEvent]
    cases mapGet st.networkRequests (pfx ++ a) with
    | none => rfl
    | some request => simp [hsp]
  | loadingFinished a b =>
    simp only [handleNetworkEvent]
    cases mapGet st.networkRequests (pfx ++ a) with
    | none => rfl
    | some request => simp [hsp]
  | loadingFailed a b =>
    simp only [handleNetworkEvent]
    cases mapGet st.networkRequests (pfx ++ a) with
    | none => rfl
    | some request => simp [hsp]

/-- A state whose filter pattern is the invalid regex `"["`, with a
tracked record and a registered callback (so only the filter can stop
fan-out). -/
def invalidFilterState : MonitorState :=
  { networkRequests := [("r1", sampleRequest)],
    requestFilter := { urlPattern := some "[", types := none }, networkCallback := true }

/-- C5 witness: the invalid pattern `"["` rejects the sample record and a
merge on a tracked identifier fans out to nobody. -/
theorem claim_C5_witness :
    shouldProcessRequest { urlPattern := some "[", types := none } sampleRequest = false ∧
    (handleNetworkEvent "" invalidFilterState (.responseReceived "r1" 500 [])).2 = [] := by
  have h := claim_C5_invalid_pattern "[" (by decide)
  exact ⟨h.1 none sampleRequest,
         h.2 "" invalidFilterState (.responseReceived "r1" 500 []) rfl⟩

/-! ## C9: `requestWillBeSent` never triggers fan-out -/

/-- C9: a `requestWillBeSent` event returns an empty fan-out list from
every state (even one whose filter the new record passes and whose
callback is registered), and any sequence consisting solely of
`requestWillBeSent` events produces no fan-out at all — so a record that
only ever receives its start event is never delivered. -/
theorem claim_C9_start_never_emits :
    (∀ (pfx : String) (st : MonitorState) (reqId method url : String)
       (headers : List (String × String)) (type now : String),
       (handleNetworkEvent pfx st
         (.requestWillBeSent reqId method url headers type now)).2 = []) ∧
    (∀ (pfx : String) (st : MonitorState) (evs : List NetworkEvent),
       (∀ ev ∈ evs, isRequestStart ev = true) → (runEvents pfx st evs).2 = []) := by
  constructor
  · intro pfx st reqId method url headers type now
    rfl
  · intro pfx st evs
    induction evs generalizing st with
    | nil => intro _; rfl
    | cons ev rest ih =>
      intro h
      have hev := h ev (List.mem_cons_self ev rest)
      cases ev with
      | requestWillBeSent a b c d e f =>
        simp only [runEvents]
        rw [ih ((handleNetworkEvent pfx st
              (NetworkEvent.requestWillBeSent a b c d e f)).1)
            (fun e he => h e (List.mem_cons_of_mem _ he))]
        rfl
      | responseReceived a b c => simp [isRequestStart] at hev
      | loadingFinished a b => simp [isRequestStart] at hev
      | loadingFailed a b => simp [isRequestStart] at hev

/-- C9 witness: the concrete start event on the fresh, all-passing state
produces no fan-out. -/
theorem claim_C9_witness : (runEvents "" initialState [startEvent]).2 = [] :=
  claim_C9_start_never_emits.2 "" initialState [startEvent] (by decide)

/-! ## C1: merging a start event plus any subset of the other kinds -/

/-- The pure field-merge a single event performs on an existing record
(the body of the corresponding `setupNetworkListeners` handler; a start
event replaces rather than merges and is excluded by hypothesis wherever
this is used). -/
def mergeOne (r : NetworkRequest) : NetworkEvent → NetworkRequest
  | .requestWillBeSent .. => r
  | .responseReceived _ status headers =>
    { r with status := status, responseHeaders := headers }
  | .loadingFinished _ encodedDataLength => { r with responseSize := encodedDataLength }
  | .loadingFailed _ errorText =>
    { r with error := some (if errorText = "" then "未知错误" else errorText) }

theorem runEvents_merge (pfx reqId : String) (evs : List NetworkEvent)
    (hid : ∀ ev ∈ evs, eventRequestId ev = reqId ∧ isRequestStart ev = false) :
    ∀ (st : MonitorState) (r : NetworkRequest),
      mapGet st.networkRequests (pfx ++ reqId) = some r →
      mapGet (runEvents pfx st evs).1.networkRequests (pfx ++ reqId) =
        some (evs.foldl mergeOne r) := by
  induction evs with
  | nil => intro st r hr; exact hr
  | cons ev rest ih =>
    intro st r hr
    obtain ⟨hide, hknd⟩ := hid ev (List.mem_cons_self ev rest)
    have hid' := fun e he => hid e (List.mem_cons_of_mem ev he)
    cases ev with
    | requestWillBeSent a b c d e f => simp [isRequestStart] at hknd
    | responseReceived a b c =>
      simp only [eventRequestId] at hide
      subst hide
      simp only [runEvents, List.foldl_cons]
      apply ih hid'
      simp only [handleNetworkEvent]
      rw [hr]
      exact mapGet_mapSet_same ..
    | loadingFinished a b =>
      simp only [eventRequestId] at hide
      subst hide
      simp only [runEvents, List.foldl_cons]
      apply ih hid'
      simp only [handleNetworkEvent]
      rw [hr]
      exact mapGet_mapSet_same ..
    | loadingFailed a b =>
      simp only [eventRequestId] at hide
      subst hide
      simp only [runEvents, List.foldl_cons]
      apply ih hid'
      simp only [handleNetworkEvent]
      rw [hr]
      exact mapGet_mapSet_same ..

theorem foldl_mergeOne_stable (evs : List NetworkEvent) :
    ∀ r : NetworkRequest,
      (evs.foldl mergeOne r).id = r.id ∧
      (evs.foldl mergeOne r).timestamp = r.timestamp ∧
      (evs.foldl mergeOne r).method = r.method ∧
      (evs.foldl mergeOne r).url = r.url ∧
      (evs.foldl mergeOne r).headers = r.headers ∧
      (evs.foldl mergeOne r).type = r.type ∧
      (evs.foldl mergeOne r).responseBody = r.responseBody ∧
      (evs.foldl mergeOne r).body = r.body ∧
      (evs.foldl mergeOne r).encodedDataLength = r.encodedDataLength := by
  induction evs with
  | nil =>
    intro r
    exact ⟨rfl, rfl, rfl, rfl, rfl, rfl, rfl, rfl, rfl⟩
  | cons ev rest ih =>
    intro r
    cases ev with
    | requestWillBeSent a b c d e f => exact ih r
    | responseReceived a b c => exact ih _
    | loadingFinished a b => exact ih _
    | loadingFailed a b => exact ih _

theorem foldl_mergeOne_no_resp (evs : List NetworkEvent)
    (h : ∀ e ∈ evs, evKind e ≠ 1) :
    ∀ r : NetworkRequest,
      (evs.foldl mergeOne r).status = r.status ∧
      (evs.foldl mergeOne r).responseHeaders = r.responseHeaders := by
  induction evs with
  | nil => intro r; exact ⟨rfl, rfl⟩
  | cons ev rest ih =>
    intro r
    have hev := h ev (List.mem_cons_self ev rest)
    have ih' := ih (fun e he => h e (List.mem_cons_of_mem ev he))
    cases ev with
    | requestWillBeSent a b c d e f => exact ih' r
    | responseReceived a b c => simp [evKind] at hev
    | loadingFinished a b => exact ih' _
    | loadingFailed a b => exact ih' _

theorem foldl_mergeOne_no_fin (evs : List NetworkEvent)
    (h : ∀ e ∈ evs, evKind e ≠ 2) :
    ∀ r : NetworkRequest, (evs.foldl mergeOne r).responseSize = r.responseSize := by
  induction evs with
  | nil => intro r; rfl
  | cons ev rest ih =>
    intro r
    have hev := h ev (List.mem_cons_self ev rest)
    have ih' := ih (fun e he => h e (List.mem_cons_of_mem ev he))
    cases ev with
    | requestWillBeSent a b c d e f => exact ih' r
    | responseReceived a b c => exact ih' _
    | loadingFinished a b => simp [evKind] at hev
    | loadingFailed a b => exact ih' _

theorem foldl_mergeOne_no_fail (evs : List NetworkEvent)
    (h : ∀ e ∈ evs, evKind e ≠ 3) :
    ∀ r : NetworkRequest, (evs.foldl mergeOne r).error = r.error := by
  induction evs with
  | nil => intro r; rfl
  | cons ev rest ih =>
    intro r
    have hev := h ev (List.mem_cons_self ev rest)
    have ih' := ih (fun e he => h e (List.mem_cons_of_mem ev he))
    cases ev with
    | requestWillBeSent a b c d e f => exact ih' r
    | responseReceived a b c => exact ih' _
    | loadingFinished a b => exact ih' _
    | loadingFailed a b => simp [evKind] at hev

theorem foldl_mergeOne_resp_mem (reqId : String) (evs : List NetworkEvent)
    (hp : evs.Pairwise (fun a b => evKind a ≠ evKind b)) :
    ∀ (r : NetworkRequest) (s : Int) (hs : List (String × String)),
      NetworkEvent.responseReceived reqId s hs ∈ evs →
      (evs.foldl mergeOne r).status = s ∧ (evs.foldl mergeOne r).responseHeaders = hs := by
  induction evs with
  | nil => intro r s hs h; simp at h
  | cons ev rest ih =>
    intro r s hs hmem
    rcases List.mem_cons.mp hmem with heq | hmem'
    · have hrest : ∀ e ∈ rest, evKind e ≠ 1 := by
        intro e he
        have hne := (List.pairwise_cons.mp hp).1 e he
        rw [← heq] at hne
        simp only [evKind] at hne
        exact fun hk => hne hk.symm
      simp only [List.foldl_cons, ← heq]
      exact foldl_mergeOne_no_resp rest hrest _
    · exact ih (List.pairwise_cons.mp hp).2 (mergeOne r ev) s hs hmem'

theorem foldl_mergeOne_fin_mem (reqId : String) (evs : List NetworkEvent)
    (hp : evs.Pairwise (fun a b => evKind a ≠ evKind b)) :
    ∀ (r : NetworkRequest) (n : Int),
      NetworkEvent.loadingFinished reqId n ∈ evs →
      (evs.foldl mergeOne r).responseSize = n := by
  induction evs with
  | nil => intro r n h; simp at h
  | cons ev rest ih =>
    intro r n hmem
    rcases List.mem_cons.mp hmem with heq | hmem'
    · have hrest : ∀ e ∈ rest, evKind e ≠ 2 := by
        intro e he
        have hne := (List.pairwise_cons.mp hp).1 e he
        rw [← heq] at hne
        simp only [evKind] at hne
        exact fun hk => hne hk.symm
      simp only [List.foldl_cons, ← heq]
      exact foldl_mergeOne_no_fin rest hrest _
    · exact ih (List.pairwise_cons.mp hp).2 (mergeOne r ev) n hmem'

theorem foldl_mergeOne_fail_mem (reqId : String) (evs : List NetworkEvent)
    (hp : evs.Pairwise (fun a b => evKind a ≠ evKind b)) :
    ∀ (r : NetworkRequest) (e : String),
      NetworkEvent.loadingFailed reqId e ∈ evs →
      (evs.foldl mergeOne r).error = some (if e = "" then "未知错误" else e) := by
  induction evs with
  | nil => intro r e h; simp at h
  | cons ev rest ih =>
    intro r e hmem
    rcases List.mem_cons.mp hmem with heq | hmem'
    · have hrest : ∀ x ∈ rest, evKind x ≠ 3 := by
        intro x hx
        have hne := (List.pairwise_cons.mp hp).1 x hx
        rw [← heq] at hne
        simp only [evKind] at hne
        exact fun hk => hne hk.symm
      simp only [List.foldl_cons, ← heq]
      exact foldl_mergeOne_no_fail rest hrest _
    · exact ih (List.pairwise_cons.mp hp).2 (mergeOne r ev) e hmem'

theorem no_resp_kind (reqId : String) (evs : List NetworkEvent)
    (hid : ∀ ev ∈ evs, eventRequestId ev = reqId)
    (h : ∀ (s : Int) (hs : List (String × String)),
      NetworkEvent.responseReceived reqId s hs ∉ evs) :
    ∀ e ∈ evs, evKind e ≠ 1 := by
  intro e he hk
  cases e with
  | responseReceived a b c =>
    have ha := hid _ he
    simp only [eventRequestId] at ha
    subst ha
    exact h b c he
  | requestWillBeSent a b c d e f => simp [evKind] at hk
  | loadingFinished a b => simp [evKind] at hk
  | loadingFailed a b => simp [evKind] at hk

theorem no_fin_kind (reqId : String) (evs : List NetworkEvent)
    (hid : ∀ ev ∈ evs, eventRequestId ev = reqId)
    (h : ∀ n : Int, NetworkEvent.loadingFinished reqId n ∉ evs) :
    ∀ e ∈ evs, evKind e ≠ 2 := by
  intro e he hk
  cases e with
  | loadingFinished a b =>
    have ha := hid _ he
    simp only [eventRequestId] at ha
    subst ha
    exact h b he
  | requestWillBeSent a b c d e f => simp [evKind] at hk
  | responseReceived a b c => simp [evKind] at hk
  | loadingFailed a b => simp [evKind] at hk

theorem no_fail_kind (reqId : String) (evs : List NetworkEvent)
    (hid : ∀ ev ∈ evs, eventRequestId ev = reqId)
    (h : ∀ e : String, NetworkEvent.loadingFailed reqId e ∉ evs) :
    ∀ e ∈ evs, evKind e ≠ 3 := by
  intro e he hk
  cases e with
  | loadingFailed a b =>
    have ha := hid _ he
    simp only [eventRequestId] at ha
    subst ha
    exact h b he
  | requestWillBeSent a b c d e f => simp [evKind] at hk
  | responseReceived a b c => simp [evKind] at hk
  | loadingFinished a b => simp [evKind] at hk

/-- C1 (amended): starting from any state, after a `requestWillBeSent`
for an identifier followed by any subset of the other three event kinds
(each at most once, in any order, all for that identifier), the live
table holds a record whose request-side fields come from the start
event, whose `status`/`responseHeaders`, `responseSize` and `error` come
from the `responseReceived`, `loadingFinished` and `loadingFailed`
events when delivered, and whose undelivered fields keep their creation
defaults — status `0`, response headers empty, response size `0`, and
error the *empty string* (the amendment: the creation default for
`error` is `''`, not `null`). -/
theorem claim_C1_merge_fields (pfx reqId method url : String)
    (headers : List (String × String)) (type now : String)
    (st : MonitorState) (evs : List NetworkEvent)
    (hid : ∀ ev ∈ evs, eventRequestId ev = reqId ∧ isRequestStart ev = false)
    (hdist : evs.Pairwise (fun a b => evKind a ≠ evKind b)) :
    ∃ r, mapGet (runEvents pfx st
        (NetworkEvent.requestWillBeSent reqId method url headers type now
          :: evs)).1.networkRequests (pfx ++ reqId) = some r ∧
      r.id = pfx ++ reqId ∧ r.timestamp = now ∧ r.method = method ∧ r.url = url ∧
      r.headers = headers ∧ r.type = type ∧
      r.responseBody = none ∧ r.body = none ∧ r.encodedDataLength = none ∧
      (∀ (s : Int) (hs : List (String × String)),
        NetworkEvent.responseReceived reqId s hs ∈ evs →
          r.status = s ∧ r.responseHeaders = hs) ∧
      ((∀ (s : Int) (hs : List (String × String)),
          NetworkEvent.responseReceived reqId s hs ∉ evs) →
        r.status = 0 ∧ r.responseHeaders = []) ∧
      (∀ n : Int, NetworkEvent.loadingFinished reqId n ∈ evs → r.responseSize = n) ∧
      ((∀ n : Int, NetworkEvent.loadingFinished reqId n ∉ evs) → r.responseSize = 0) ∧
      (∀ e : String, NetworkEvent.loadingFailed reqId e ∈ evs →
        r.error = some (if e = "" then "未知错误" else e)) ∧
      ((∀ e : String, NetworkEvent.loadingFailed reqId e ∉ evs) → r.error = some "") := by
  have hidonly : ∀ ev ∈ evs, eventRequestId ev = reqId := fun e he => (hid e he).1
  have hstart : mapGet (handleNetworkEvent pfx st
      (NetworkEvent.requestWillBeSent reqId method url headers type now)).1.networkRequests
      (pfx ++ reqId) = some
        { id := pfx ++ reqId, timestamp := now, method := method, url := url,
          headers := headers, type := type, status := 0, responseHeaders := [],
          responseSize := 0, error := some "" } := by
    simp only [handleNetworkEvent]
    exact mapGet_mapSet_same ..
  have hfinal := runEvents_merge pfx reqId evs hid _ _ hstart
  refine ⟨evs.foldl mergeOne
      { id := pfx ++ reqId, timestamp := now, method := method, url := url,
        headers := headers, type := type, status := 0, responseHeaders := [],
        responseSize := 0, error := some "" }, ?_, ?_⟩
  · simp only [runEvents]
    exact hfinal
  · obtain ⟨sid, sts, sm, su, sh, sty, srb, sb, se⟩ := foldl_mergeOne_stable evs
      { id := pfx ++ reqId, timestamp := now, method := method, url := url,
        headers := headers, type := type, status := 0, responseHeaders := [],
        responseSize := 0, error := some "" }
    refine ⟨sid, sts, sm, su, sh, sty, srb, sb, se, ?_, ?_, ?_, ?_, ?_, ?_⟩
    · intro s hs hmem
      exact foldl_mergeOne_resp_mem reqId evs hdist _ s hs hmem
    · intro hno
      exact foldl_mergeOne_no_resp evs (no_resp_kind reqId evs hidonly hno) _
    · intro n hmem
      exact foldl_mergeOne_fin_mem reqId evs hdist _ n hmem
    · intro hno
      exact foldl_mergeOne_no_fin evs (no_fin_kind reqId evs hidonly hno) _
    · intro e hmem
      exact foldl_mergeOne_fail_mem reqId evs hdist _ e hmem
    · intro hno
      exact foldl_mergeOne_no_fail evs (no_fail_kind reqId evs hidonly hno) _

/-- C1 (counterexample): after a lone `requestWillBeSent`, the live
record's `error` field is the empty string `''`, not `null` — the claim's
stated default (`error` null until `load-failed`) does not hold on the
code. -/
theorem claim_C1_counterexample :
    (mapGet (runEvents "" initialState [startEvent]).1.networkRequests "r1").map
        (fun r => r.error) = some (some "") ∧
      some "" ≠ (none : Option String) := by
  exact ⟨by decide, by decide⟩

/-- Concrete merge events for the C1 witness: a `loadingFinished` then a
`responseReceived` (out of protocol order, exercising "any order"). -/
def c1Events : List NetworkEvent :=
  [.loadingFinished "r1" 512, .responseReceived "r1" 404 [("x", "y")]]

/-- C1 witness: the amended theorem applied at a concrete event sequence
start, finished, response (no failure), checking delivered fields and
the undelivered `error` default. -/
theorem claim_C1_witness :
    ∃ r, mapGet (runEvents "" initialState
        (startEvent :: c1Events)).1.networkRequests ("" ++ "r1") = some r ∧
      r.status = 404 ∧ r.responseHeaders = [("x", "y")] ∧
      r.responseSize = 512 ∧ r.error = some "" := by
  obtain ⟨r, hr, hid, hts, hm, hu, hh, hty, hrb, hb, he,
    hresp, hnoresp, hfin, hnofin, hfail, hnofail⟩ :=
    claim_C1_merge_fields "" "r1" "GET" "https://example.com/a" [("Accept", "*/*")] "xhr"
      "2024-01-01T00:00:00.000Z" initialState c1Events (by decide) (by decide)
  refine ⟨r, hr, ?_, ?_, ?_, ?_⟩
  · exact (hresp 404 [("x", "y")] (by decide)).1
  · exact (hresp 404 [("x", "y")] (by decide)).2
  · exact hfin 512 (by decide)
  · exact hnofail (by intro e he; simp [c1Events] at he)

/-! ## Store helper lemmas -/

theorem rowPasses_empty (row : DatabaseRow) : rowPasses emptyQuery row = true := rfl

theorem queryRequests_empty_eq (db : List DatabaseRow) :
    queryRequests emptyQuery db =
      (List.insertionSort (fun a b => sortLeB emptyQuery a b = true) db).map rowToRequest := by
  unfold queryRequests
  rw [List.filter_eq_self.mpr (fun a _ => rowPasses_empty a)]
  rfl

theorem queryRequests_empty_length (db : List DatabaseRow) :
    (queryRequests emptyQuery db).length = db.length := by
  rw [queryRequests_empty_eq, List.length_map]
  exact (List.perm_insertionSort _ db).length_eq

theorem length_filter_split (p : DatabaseRow → Bool) (l : List DatabaseRow) :
    (l.filter p).length + (l.filter (fun a => !p a)).length = l.length := by
  induction l with
  | nil => rfl
  | cons a l ih =>
    by_cases h : p a = true
    · simp [List.filter_cons, h, ih]
      omega
    · have h' : p a = false := by simpa using h
      simp [List.filter_cons, h', ih]
      omega

/-! ## C6: pruning by age -/

/-- C6: `clearOldRequests` keeps exactly the rows whose timestamp is not
strictly older than the cutoff (the ISO rendering of now − days), its
reported count plus the kept rows account for the whole table, and
pruning again with the same cutoff removes nothing and returns 0. -/
theorem claim_C6_prune (cutoff : String) (db : List DatabaseRow) :
    (∀ row, row ∈ (clearOldRequests cutoff db).2 ↔
      row ∈ db ∧ strLt row.timestamp cutoff = false) ∧
    (clearOldRequests cutoff db).1 + (clearOldRequests cutoff db).2.length = db.length ∧
    (clearOldRequests cutoff (clearOldRequests cutoff db).2).1 = 0 := by
  refine ⟨?_, ?_, ?_⟩
  · intro row
    simp [clearOldRequests, List.mem_filter]
  · exact length_filter_split _ db
  · have : (clearOldRequests cutoff db).2.filter
        (fun row => strLt row.timestamp cutoff) = [] := by
      rw [List.filter_eq_nil_iff]
      intro a ha
      have := (List.mem_filter.mp ha).2
      simp at this
      simp [this]
    simp [clearOldRequests, this]

/-- C6 witness: a two-row store, one row two days older than the cutoff
and one at the cutoff instant; pruning removes exactly the old row and a
second prune removes nothing. -/
theorem claim_C6_witness :
    ((clearOldRequests "2024-01-03T00:00:00.000Z"
        [requestToRow sampleRequest,
         requestToRow { sampleRequest with id := "r2", timestamp := "2024-01-03T00:00:00.000Z" }]).1 = 1 ∧
     (clearOldRequests "2024-01-03T00:00:00.000Z"
        (clearOldRequests "2024-01-03T00:00:00.000Z"
          [requestToRow sampleRequest,
           requestToRow { sampleRequest with id := "r2", timestamp := "2024-01-03T00:00:00.000Z" }]).2).1 = 0) ∧
    requestToRow sampleRequest ∉
      (clearOldRequests "2024-01-03T00:00:00.000Z"
        [requestToRow sampleRequest,
         requestToRow { sampleRequest with id := "r2", timestamp := "2024-01-03T00:00:00.000Z" }]).2 := by
  have h := claim_C6_prune "2024-01-03T00:00:00.000Z"
    [requestToRow sampleRequest,
     requestToRow { sampleRequest with id := "r2", timestamp := "2024-01-03T00:00:00.000Z" }]
  refine ⟨⟨?_, h.2.2⟩, ?_⟩
  · have hlen := h.2.1
    have : (clearOldRequests "2024-01-03T00:00:00.000Z"
        [requestToRow sampleRequest,
         requestToRow { sampleRequest with id := "r2", timestamp := "2024-01-03T00:00:00.000Z" }]).2.length = 1 := by decide
    rw [this] at hlen
    simpa using hlen
  · intro hmem
    have := ((h.1 _).mp hmem).2
    revert this
    decide

/-! ## C8: the empty query -/

/-- C8 (amended): the empty query returns *all* stored records — there is
no default limit (`if (query.limit)` adds no LIMIT clause when the field
is absent) — as a permutation of the table sorted by timestamp
descending (SQLite TEXT order). -/
theorem claim_C8_empty_query (db : List DatabaseRow) :
    (queryRequests emptyQuery db).length = db.length ∧
    (queryRequests emptyQuery db).Perm (db.map rowToRequest) ∧
    List.Sorted (fun a b => strLe b.timestamp a.timestamp = true)
      (queryRequests emptyQuery db) := by
  refine ⟨queryRequests_empty_length db, ?_, ?_⟩
  · rw [queryRequests_empty_eq]
    exact (List.perm_insertionSort _ db).map rowToRequest
  · rw [queryRequests_empty_eq]
    haveI htot : IsTotal DatabaseRow (fun a b => sortLeB emptyQuery a b = true) :=
      ⟨fun a b => by
        simpa [sortLeB, strLe] using charsLe_total b.timestamp.data a.timestamp.data⟩
    haveI htr : IsTrans DatabaseRow (fun a b => sortLeB emptyQuery a b = true) :=
      ⟨fun a b c hab hbc => by
        simp only [sortLeB, strLe] at hab hbc ⊢
        exact charsLe_trans _ _ _ hbc hab⟩
    have hs := List.sorted_insertionSort (fun a b => sortLeB emptyQuery a b = true) db
    rw [List.Sorted, List.pairwise_map]
    exact hs

/-- An identifier of length `n`, so that distinct lengths give distinct
primary keys. -/
def seedId (n : Nat) : String := String.mk (List.replicate n 'a')

/-- The sample record under the `n`-th seed identifier. -/
def seedRequest (n : Nat) : NetworkRequest := { sampleRequest with id := seedId n }

/-- A store reached by `n` saves of records with pairwise-distinct
identifiers. -/
def seedDb : Nat → List DatabaseRow
  | 0 => []
  | n + 1 => saveRequest (seedRequest n) (seedDb n)

theorem seedId_inj {m n : Nat} (h : seedId m = seedId n) : m = n := by
  have hd := congrArg String.data h
  simp only [seedId] at hd
  have := congrArg List.length hd
  simpa using this

theorem seedDb_ids : ∀ n, ∀ row ∈ seedDb n, ∃ k, k < n ∧ row.id = seedId k := by
  intro n
  induction n with
  | zero => intro row h; simp [seedDb] at h
  | succ n ih =>
    intro row h
    simp only [seedDb, saveRequest] at h
    rw [List.mem_append] at h
    rcases h with h | h
    · obtain ⟨k, hk, hid⟩ := ih row (List.mem_of_mem_filter h)
      exact ⟨k, by omega, hid⟩
    · simp only [List.mem_singleton] at h
      subst h
      exact ⟨n, by omega, rfl⟩

theorem seedDb_length : ∀ n, (seedDb n).length = n := by
  intro n
  induction n with
  | zero => rfl
  | succ n ih =>
    simp only [seedDb, saveRequest, List.length_append]
    have hfix : (seedDb n).filter (fun row => row.id != (seedRequest n).id) = seedDb n := by
      apply List.filter_eq_self.mpr
      intro a ha
      obtain ⟨k, hk, hid⟩ := seedDb_ids n a ha
      simp only [hid, bne_iff_ne, ne_eq]
      intro heq
      have := seedId_inj heq
      omega
    rw [hfix, ih]
    rfl

/-- C8 (counterexample): there is no default limit `N` bounding the size
of an empty-query result over every store — a store reached by `N + 1`
saves of distinct identifiers returns `N + 1` records. -/
theorem claim_C8_counterexample :
    ¬ ∃ N : Nat, ∀ db : List DatabaseRow, (queryRequests emptyQuery db).length ≤ N := by
  rintro ⟨N, h⟩
  have hle := h (seedDb (N + 1))
  rw [queryRequests_empty_length, seedDb_length] at hle
  omega

/-! ## C3: save / query round trip -/

theorem rowToRequest_requestToRow (r : NetworkRequest)
    (hrb : r.responseBody.isSome = true) (herr : r.error ≠ some "") :
    rowToRequest (requestToRow r) = r := by
  obtain ⟨b, hb⟩ := Option.isSome_iff_exists.mp hrb
  cases hr : r.error with
  | none =>
    cases r with
    | mk id ts m u hs ty st rh rs rb bd ed er =>
      simp only at hb hr
      subst hb hr
      simp [rowToRequest, requestToRow, intToDecString_ne_empty st,
        jsNumber?_intToDecString st]
  | some s =>
    have hs' : s ≠ "" := by
      intro h
      exact herr (by rw [hr, h])
    cases r with
    | mk id ts m u hs ty st rh rs rb bd ed er =>
      simp only at hb hr
      subst hb hr
      simp [rowToRequest, requestToRow, intToDecString_ne_empty st,
        jsNumber?_intToDecString st, hs']

/-- C3 (amended): for every record whose `responseBody` is present and
whose `error` is not the empty string, `save` followed by the empty
query returns a sequence containing a record equal to it in every field.
The amendment excludes the two fields the read path normalises: an
absent `responseBody` reads back as `''` and an empty-string `error`
reads back as `null`. -/
theorem claim_C3_roundtrip (db : List DatabaseRow) (r : NetworkRequest)
    (hrb : r.responseBody.isSome = true) (herr : r.error ≠ some "") :
    r ∈ queryRequests emptyQuery (saveRequest r db) := by
  have hmem : requestToRow r ∈ saveRequest r db := by
    simp [saveRequest]
  have hsorted : requestToRow r ∈
      List.insertionSort (fun a b => sortLeB emptyQuery a b = true) (saveRequest r db) :=
    ((List.perm_insertionSort _ _).mem_iff).mpr hmem
  rw [queryRequests_empty_eq]
  have hmap := List.mem_map_of_mem rowToRequest hsorted
  rwa [rowToRequest_requestToRow r hrb herr] at hmap

/-- C3 witness: the concrete sample record round-trips through the
store. -/
theorem claim_C3_witness :
    sampleRequest ∈ queryRequests emptyQuery (saveRequest sampleRequest []) :=
  claim_C3_roundtrip [] sampleRequest (by decide) (by decide)

/-- A record whose `error` field holds the empty string. -/
def emptyErrorRequest : NetworkRequest := { sampleRequest with error := some "" }

/-- C3 (counterexample): a record with `error = ''` does not round-trip —
the read path's `row.error || null` turns the empty string into `null`,
so no returned record equals it in every field. -/
theorem claim_C3_counterexample :
    emptyErrorRequest ∉ queryRequests emptyQuery (saveRequest emptyErrorRequest []) := by
  decide

/-! ## C7: status-range predicates -/

/-- A sample record with a given identifier, timestamp and status. -/
def statusRequest (id ts : String) (status : Int) : NetworkRequest :=
  { sampleRequest with id := id, timestamp := ts, status := status }

/-- A store holding exactly four records with statuses 200, 404, 500 and
201 (distinct timestamps so the default order is unambiguous). -/
def c7db : List DatabaseRow :=
  saveRequest (statusRequest "a" "2024-01-01T00:00:00.000Z" 200)
    (saveRequest (statusRequest "b" "2024-01-04T00:00:00.000Z" 404)
      (saveRequest (statusRequest "c" "2024-01-02T00:00:00.000Z" 500)
        (saveRequest (statusRequest "d" "2024-01-03T00:00:00.000Z" 201) [])))

/-- C7: `query({minStatus: 400})` over the four-status store returns
exactly the 404 and 500 records in timestamp-descending order; and in
general every row passing a query with a truthy `minStatus`/`maxStatus`
has a non-NULL status column whose SQLite integer cast lies in the
inclusive range, whatever the other predicates (including the
exact-status one) say. -/
theorem claim_C7_min_status :
    queryRequests { minStatus := some 400 } c7db =
      [statusRequest "b" "2024-01-04T00:00:00.000Z" 404,
       statusRequest "c" "2024-01-02T00:00:00.000Z" 500] ∧
    (∀ (q : RequestQuery) (row : DatabaseRow), rowPasses q row = true →
      (intFieldTruthy q.minStatus = true →
        ∃ s, row.status = some s ∧ q.minStatus.getD 0 ≤ castTextInt s) ∧
      (intFieldTruthy q.maxStatus = true →
        ∃ s, row.status = some s ∧ castTextInt s ≤ q.maxStatus.getD 0)) := by
  constructor
  · decide
  · intro q row hpass
    simp only [rowPasses, Bool.and_eq_true] at hpass
    obtain ⟨⟨⟨⟨⟨⟨⟨⟨⟨⟨⟨⟨h1, h2⟩, h3⟩, h4⟩, h5⟩, h6⟩, h7⟩, h8⟩, h9⟩, h10⟩, h11⟩, h12⟩, h13⟩ :=
      hpass
    constructor
    · intro ht
      rw [if_pos ht] at h9
      clear h1 h2 h3 h4 h5 h6 h7 h8 h10 h11 h12 h13
      cases hs : row.status with
      | none => rw [hs] at h9; simp at h9
      | some s =>
        rw [hs] at h9
        simp only [decide_eq_true_eq] at h9
        exact ⟨s, rfl, h9⟩
    · intro ht
      rw [if_pos ht] at h10
      clear h1 h2 h3 h4 h5 h6 h7 h8 h9 h11 h12 h13
      cases hs : row.status with
      | none => rw [hs] at h10; simp at h10
      | some s =>
        rw [hs] at h10
        simp only [decide_eq_true_eq] at h10
        exact ⟨s, rfl, h10⟩

/-- C7 witness: the general range conjunct applied to the concrete
passing 404 row of the four-status store. -/
theorem claim_C7_witness :
    queryRequests { minStatus := some 400 } c7db =
      [statusRequest "b" "2024-01-04T00:00:00.000Z" 404,
       statusRequest "c" "2024-01-02T00:00:00.000Z" 500] ∧
    ∃ s, (requestToRow (statusRequest "b" "2024-01-04T00:00:00.000Z" 404)).status = some s ∧
      (400 : Int) ≤ castTextInt s := by
  refine ⟨claim_C7_min_status.1, ?_⟩
  exact ((claim_C7_min_status.2 { minStatus := some 400 }
    (requestToRow (statusRequest "b" "2024-01-04T00:00:00.000Z" 404)) (by decide)).1 (by decide))

/-! ## C10: zero-valued numeric predicates are inert -/

theorem sortLeB_congr (q1 q2 : RequestQuery) (hs : q1.sortBy = q2.sortBy)
    (ho : q1.sortOrder = q2.sortOrder) : sortLeB q1 = sortLeB q2 := by
  funext a b
  simp [sortLeB, hs, ho]

theorem queryRequests_congr (q1 q2 : RequestQuery)
    (hpass : ∀ row, rowPasses q1 row = rowPasses q2 row)
    (hs : q1.sortBy = q2.sortBy) (ho : q1.sortOrder = q2.sortOrder)
    (hl : q1.limit = q2.limit) (hoff : q1.offset = q2.offset) (db : List DatabaseRow) :
    queryRequests q1 db = queryRequests q2 db := by
  unfold queryRequests
  rw [List.filter_congr (fun a _ => hpass a), sortLeB_congr q1 q2 hs ho, hl, hoff]

/-- C10: setting the exact-status field — or any of the four numeric
range fields — to `0` adds no predicate: the query result over every
store equals the result with the field absent (JS `if (query.x)` treats
`0` as falsy).  In particular `query({status: 0})` over the four-status
store returns all four records, not just never-responded ones. -/
theorem claim_C10_zero_fields (q : RequestQuery) (db : List DatabaseRow) :
    queryRequests { q with status := some 0 } db =
      queryRequests { q with status := none } db ∧
    queryRequests { q with minResponseSize := some 0 } db =
      queryRequests { q with minResponseSize := none } db ∧
    queryRequests { q with maxResponseSize := some 0 } db =
      queryRequests { q with maxResponseSize := none } db ∧
    queryRequests { q with minStatus := some 0 } db =
      queryRequests { q with minStatus := none } db ∧
    queryRequests { q with maxStatus := some 0 } db =
      queryRequests { q with maxStatus := none } db ∧
    (queryRequests { emptyQuery with status := some 0 } c7db).length = 4 := by
  refine ⟨?_, ?_, ?_, ?_, ?_, ?_⟩
  · exact queryRequests_congr _ _
      (fun row => by simp [rowPasses, intFieldTruthy]) rfl rfl rfl rfl db
  · exact queryRequests_congr _ _
      (fun row => by simp [rowPasses, intFieldTruthy]) rfl rfl rfl rfl db
  · exact queryRequests_congr _ _
      (fun row => by simp [rowPasses, intFieldTruthy]) rfl rfl rfl rfl db
  · exact queryRequests_congr _ _
      (fun row => by simp [rowPasses, intFieldTruthy]) rfl rfl rfl rfl db
  · exact queryRequests_congr _ _
      (fun row => by simp [rowPasses, intFieldTruthy]) rfl rfl rfl rfl db
  · decide
